import Mathlib

/-!
Verification development for the news-aggregation pipeline.

The Python sources are shallowly embedded:
  - Python `str` values are `List Char` (Python indexes/slices/measures strings
    by code points, exactly as `List Char` does).
  - Parsed HTML (BeautifulSoup) is the `Node` tree below; `find` / `find_all`
    scan element descendants in document (pre-)order, as bs4 does.  A found
    `Tag` is always truthy in bs4 (`Tag.__bool__` returns `True`); only a
    `find` miss (`None`) is falsy.  `Option Node` mirrors this.
  - Network and LLM calls are oracle inputs of type `Except Unit _`;
    `Except.error` models a raised exception at that call site.
  - `requests` / parser behaviour that the code only logs (the paywall
    keyword sniff) is a no-op and is not modelled.

Main embedded operations: `scrape_article`, `get_news_urls`,
`summarize_news` (final.py) and `fetch_news` (agent.py).
-/

/-! ## Python string primitives -/

/-- Python strings as lists of code points. -/
abbrev Str := List Char

/-- Coerce a Lean string literal to the Python-string model. -/
def str (s : String) : Str := s.data

/-- Python `s.strip()`: drop leading and trailing whitespace.  (The exotic
whitespace code points `\x0b`/`\x0c` that Python also strips are not used by
any modelled input.) -/
def pyStrip (s : Str) : Str :=
  ((s.dropWhile Char.isWhitespace).reverse.dropWhile Char.isWhitespace).reverse

/-- Python `s.lower()` (ASCII case mapping suffices for the modelled data). -/
def pyLower (s : Str) : Str := s.map Char.toLower

/-- Python `s.startswith(pre)`. -/
def pyStartsWith (s pre : Str) : Bool := pre.isPrefixOf s

/-- Python `s.endswith(suf)`. -/
def pyEndsWith (s suf : Str) : Bool := suf.isSuffixOf s

/-- Python `sub in s` (substring containment), for non-empty `sub`:
true iff `sub` is a prefix of some suffix of `s`. -/
def pyIn (sub : Str) : Str → Bool
  | [] => sub.isPrefixOf []
  | l@(_ :: t) => sub.isPrefixOf l || pyIn sub t

/-- Python `sep.join(xs)`. -/
def pyJoin (sep : Str) : List Str → Str
  | [] => []
  | [x] => x
  | x :: xs => x ++ sep ++ pyJoin sep xs

/-- Worker for `pyCount`, structurally recursive on a fuel bound that always
dominates the remaining string length, so it is kernel-evaluable. -/
def countGo (sep : Str) : Nat → Str → Nat
  | 0, _ => 0
  | _ + 1, [] => 0
  | fuel + 1, l@(_ :: t) =>
    if sep.isPrefixOf l then 1 + countGo sep fuel (l.drop sep.length)
    else countGo sep fuel t

/-- Python `s.count(sep)` for non-empty `sep`: the number of non-overlapping
occurrences, scanning greedily from the left. -/
def pyCount (sep l : Str) : Nat := if sep = [] then 0 else countGo sep l.length l

/-- Worker for `pySplit`, fuel-bounded like `countGo`. -/
def splitGo (sep : Str) : Nat → Str → List Str
  | 0, l => [l]
  | _ + 1, [] => [[]]
  | fuel + 1, l@(c :: t) =>
    if sep.isPrefixOf l then [] :: splitGo sep fuel (l.drop sep.length)
    else
      match splitGo sep fuel t with
      | [] => [[c]]
      | h :: r => (c :: h) :: r

/-- Python `s.split(sep)` for non-empty `sep`: split on every non-overlapping
occurrence, scanning from the left, keeping empty pieces. -/
def pySplit (sep l : Str) : List Str := if sep = [] then [l] else splitGo sep l.length l

/-- Python `s.split()` (no argument): the whitespace-separated words, with
runs of whitespace collapsed and leading/trailing whitespace ignored. -/
def pyWords (s : Str) : List Str :=
  (List.splitOnP Char.isWhitespace s).filter (fun w => w ≠ [])

/-- The cleanup on line 325 of final.py: `' '.join(article_text.split())`. -/
def normWs (s : Str) : Str := pyJoin (str " ") (pyWords s)

/-! ## Parsed HTML documents

`Node` models the BeautifulSoup element tree: an element with a tag name, an
attribute association list (bs4 keeps one value per attribute name; the
multi-valued `class` attribute is kept as its raw space-separated string,
which for the space-free keywords probed by the code matches a token iff the
keyword is a substring of the raw string), and children; or a text node.
The root node passed around stands for the `BeautifulSoup` object itself
(bs4 tag name `[document]`); searches never match the root, only its
descendants, exactly as in bs4. -/

inductive Node where
  | text (s : Str)
  | elem (tag : String) (attrs : List (String × String)) (children : List Node)

/-- Attribute lookup, `tag.get(key)`: `none` on a text node or absent key. -/
def Node.attr : Node → String → Option String
  | .text _, _ => none
  | .elem _ attrs _, k => attrs.lookup k

/-- Does this node carry the given element tag? -/
def Node.tagIs : Node → String → Bool
  | .text _, _ => false
  | .elem t _ _, t0 => t == t0

mutual
/-- bs4 `tag.get_text()` / `tag.text`: concatenation of all text descendants
in document order, no separator. -/
def getText : Node → Str
  | .text s => s
  | .elem _ _ cs => getTextL cs
def getTextL : List Node → Str
  | [] => []
  | n :: ns => getText n ++ getTextL ns
end

mutual
/-- All element descendants of a node in document (pre-)order, the node
itself excluded — the search space of bs4 `find` / `find_all`. -/
def descendants : Node → List Node
  | .text _ => []
  | .elem _ _ cs => descL cs
def descL : List Node → List Node
  | [] => []
  | n :: ns =>
    (match n with | .elem _ _ _ => [n] | .text _ => []) ++ descendants n ++ descL ns
end

/-- bs4 `find_all(pred)`: every element descendant satisfying the predicate,
in document order. -/
def findAll (p : Node → Bool) (n : Node) : List Node := (descendants n).filter p

/-- bs4 `find(pred)`: the first element descendant satisfying the predicate,
in document order, if any. -/
def findFirst (p : Node → Bool) (n : Node) : Option Node := (findAll p n).head?

/-- Is a node kept by the `decompose()` sweep (text always; an element iff
its tag is not in the removal list)? -/
def keepNode (bad : List String) : Node → Bool
  | .text _ => true
  | .elem t _ _ => !bad.contains t

mutual
/-- The `decompose()` loop (final.py line 264): remove every element whose
tag is in `bad`, together with its whole subtree. -/
def stripTags (bad : List String) : Node → Node
  | .text s => .text s
  | .elem t a cs => .elem t a (stripTagsL bad cs)
def stripTagsL (bad : List String) : List Node → List Node
  | [] => []
  | n :: ns => (if keepNode bad n then [stripTags bad n] else []) ++ stripTagsL bad ns
end

/-! ## ArticleExtractor — `scrape_article` (final.py lines 176-358)

The function's inputs beyond the URL are the outcome of `requests.get` and
of the parses applied to `response.text`.  They are bundled in
`FetchResult`:
  - `ok = false` models `requests.get` (or anything before the status
    check) raising — the `except` on line 354 then runs;
  - `status` is `response.status_code`;
  - `doc` is the BeautifulSoup parse of `response.text` (the same document
    tree both for the MSN branch's fresh parse on line 225 and the main
    parse on line 249, since both parse the same text);
  - `jsonLd` is the combined outcome of the MSN regex + `json.loads` on
    lines 209-222: `none` when the regex does not match, the JSON does not
    decode, or the decoded value is not a dict; otherwise the optional
    `articleBody` and `description` fields of the decoded object. -/

structure JsonLd where
  articleBody : Option Str
  description : Option Str

structure FetchResult where
  ok : Bool
  status : Nat
  doc : Node
  jsonLd : Option JsonLd

/-- Line 264: tags removed before the generic extraction methods. -/
def removedTags : List String :=
  ["script", "style", "nav", "footer", "header", "aside", "iframe", "noscript"]

/-- Line 279: the fixed list of content-hint class keywords. -/
def classHints : List String :=
  ["article", "content", "main", "story", "entry", "post", "text", "body"]

/-- Line 271: an element whose `data-testid` attribute value contains
"article" case-insensitively (the lambda returns False on an absent or
empty value; an empty value contains no substring anyway). -/
def dataTestidArticle (n : Node) : Bool :=
  match n.attr "data-testid" with
  | some v => pyIn (str "article") (pyLower v.data)
  | none => false

/-- Line 280: an element whose class string contains the given hint
case-insensitively.  (bs4 probes each space-separated class token; since
every hint is space-free, a hint is a substring of some token iff it is a
substring of the raw space-separated class string.) -/
def classHintMatch (hint : String) (n : Node) : Bool :=
  match n.attr "class" with
  | some v => pyIn hint.data (pyLower v.data)
  | none => false

/-- bs4 `find('div', class_='articlecontent')` (line 231): exact class-token
membership in the space-separated class attribute. -/
def hasClassToken (c : String) (n : Node) : Bool :=
  match n.attr "class" with
  | some v => (pyWords v.data).contains c.data
  | none => false

/-- bs4 `find('meta', attrs with name description)` (lines 240, 259). -/
def metaNameDesc (n : Node) : Bool :=
  n.tagIs "meta" && (n.attr "name" == some "description")

/-- bs4 `find('meta', attrs with property og description)` (line 259). -/
def metaOgDesc (n : Node) : Bool :=
  n.tagIs "meta" && (n.attr "property" == some "og:description")

/-- The acceptance test threaded through methods 1-5 (lines 274, 278, 281,
285, 289, 304): `article` is not None and `article.text.strip()` is
non-empty (a found Tag itself is always truthy in bs4). -/
def okC (a : Option Node) : Bool :=
  match a with
  | some n => !(pyStrip (getText n)).isEmpty
  | none => false

/-- Chain step: keep `a` when it passes the acceptance test, otherwise move
on to the next method's result `b`. -/
def orOk (a b : Option Node) : Option Node := if okC a then a else b

/-- Lines 279-282: the loop over the class hints.  Each iteration overwrites
`article` with `find` on that hint and breaks when the result is accepted;
after an unsuccessful full loop `article` holds the last hint's `find`
result (necessarily unaccepted). -/
def classHintLoop (d : Node) : List String → Option Node
  | [] => none
  | [h] => findFirst (classHintMatch h) d
  | h :: hs =>
    let a := findFirst (classHintMatch h) d
    if okC a then a else classHintLoop d hs

/-- Line 295: the number of paragraph descendants of a node. -/
def pCount (n : Node) : Nat := (findAll (fun m => m.tagIs "p") n).length

/-- Lines 290-298: scan all divs keeping the first div with the strictly
greatest paragraph count (initial best count 0, so only divs with at least
one paragraph are ever candidates). -/
def bestDivLoop : List Node → Option Node × Nat → Option Node × Nat
  | [], acc => acc
  | d :: ds, acc =>
    if pCount d > acc.2 then bestDivLoop ds (some d, pCount d) else bestDivLoop ds acc

/-- The `(candidate, max_p_count)` pair after the line 294-298 loop. -/
def bestDiv (d : Node) : Option Node × Nat :=
  bestDivLoop (findAll (fun m => m.tagIs "div") d) (none, 0)

/-- Methods 1-5 chained (lines 270-301): the value of `article` entering
line 304. -/
def chooseArticle (d : Node) : Option Node :=
  let a4 :=
    orOk (orOk (orOk (findFirst dataTestidArticle d)
                     (findFirst (fun n => n.tagIs "article") d))
               (classHintLoop d classHints))
         (findFirst (fun n => n.tagIs "main") d)
  if okC a4 then a4
  else if 3 ≤ (bestDiv d).2 then (bestDiv d).1 else a4

/-- Lines 305-315: extract text from an accepted container — the
space-joined paragraph texts longer than 20 chars, or the container's raw
stripped text when no paragraph survives. -/
def extractFrom (n : Node) : Str :=
  let content := ((findAll (fun m => m.tagIs "p") n).map
      (fun p => pyStrip (getText p))).filter (fun s => 20 < s.length)
  if content ≠ [] then pyJoin (str " ") content else pyStrip (getText n)

/-- Line 304 applied to a method-chain value: extract only from a non-None
container whose text is non-empty. -/
def textOfC (a : Option Node) : Str :=
  match a with
  | some n => if okC (some n) then extractFrom n else []
  | none => []

/-- Lines 303-315: `article_text` after the container extraction step. -/
def containerText (d : Node) : Str := textOfC (chooseArticle d)

/-- Lines 318-321: the last-resort page-wide paragraph collection
(threshold 30 chars). -/
def lastResortText (d : Node) : Str :=
  pyJoin (str " ")
    (((findAll (fun m => m.tagIs "p") d).map (fun p => pyStrip (getText p))).filter
      (fun s => 30 < s.length))

/-- Lines 268-325: `article_text` after container extraction, the
last-resort collection when it is empty, and whitespace normalization. -/
def articleTextOf (d : Node) : Str :=
  let t := containerText d
  normWs (if t.isEmpty then lastResortText d else t)

/-- Lines 252-255: the page title (empty when there is no title element). -/
def titleOf (doc : Node) : Str :=
  match findFirst (fun n => n.tagIs "title") doc with
  | some t => pyStrip (getText t)
  | none => []

/-- Lines 258-261: the meta description — name variant first, open-graph
variant second (Python `or`; both meta tags are truthy when found), used
only when a non-empty `content` attribute is present. -/
def metaOf (doc : Node) : Str :=
  match (findFirst metaNameDesc doc).orElse (fun _ => findFirst metaOgDesc doc) with
  | some m =>
    match m.attr "content" with
    | some c => if c.data = [] then [] else pyStrip c.data
    | none => []
  | none => []

/-- Line 336: the stripped texts of all h1/h2/h3 elements. -/
def headingsOf (d : Node) : List Str :=
  (findAll (fun n => n.tagIs "h1" || n.tagIs "h2" || n.tagIs "h3") d).map
    (fun h => pyStrip (getText h))

/-- Lines 231-237: the space-joined paragraph texts of the MSN
`articlecontent` div; empty when the div is absent or has no paragraph
text, in which case the code falls through to the meta description. -/
def msnParasOf (doc : Node) : Str :=
  match findFirst (fun n => n.tagIs "div" && hasClassToken "articlecontent" n) doc with
  | some c => pyJoin (str " ") ((findAll (fun m => m.tagIs "p") c).map
      (fun p => pyStrip (getText p)))
  | none => []

/-- Lines 240-242: the raw `content` value of the MSN meta description;
empty when the tag, the attribute, or the value is missing/empty (all three
make the line 241 guard false). -/
def msnMetaContent (doc : Node) : Str :=
  match findFirst metaNameDesc doc with
  | some m => ((m.attr "content").map String.data).getD []
  | none => []

/-- Lines 224-245: the MSN soup fallback — requires an h1; then headline
plus article paragraphs, else headline plus meta description, else the bare
headline.  `none` (no h1) falls through to the generic extractor. -/
def msnSoupFallback (doc : Node) : Option Str :=
  match findFirst (fun n => n.tagIs "h1") doc with
  | none => none
  | some h1 =>
    let headline := pyStrip (getText h1)
    if msnParasOf doc ≠ [] then some (headline ++ str ". " ++ msnParasOf doc)
    else if msnMetaContent doc ≠ [] then some (headline ++ str ". " ++ msnMetaContent doc)
    else some headline

/-- Lines 200-247: the whole MSN special-handling block; `none` means the
block completed without returning and control reaches the generic path. -/
def msnExtract (r : FetchResult) : Option Str :=
  match r.jsonLd with
  | some j =>
    match j.articleBody with
    | some b => some (b.take 5000)
    | none =>
      match j.description with
      | some dsc => some (dsc.take 5000)
      | none => msnSoupFallback r.doc
  | none => msnSoupFallback r.doc

/-- Line 357: `url.split('//')[-1].split('/')[0]`. -/
def domainOf (url : Str) : Str :=
  (pySplit (str "/") ((pySplit (str "//") url).getLastD [])).headD []

/-- final.py lines 249-352: the generic (non-MSN) extraction and fallback
chain on a successfully fetched page.  Line 344 is dead code (an empty
`article_text` with a title or meta description present always returns at
line 332/333 first) but is embedded anyway. -/
def scrapeGeneric (url : Str) (doc : Node) : Str :=
  let title := titleOf doc
  let meta_desc := metaOf doc
  let stripped := stripTags removedTags doc
  let article_text := articleTextOf stripped
  if article_text.length < 100 ∧ (title ≠ [] ∨ meta_desc ≠ []) then
    if title ≠ [] ∧ meta_desc ≠ [] then title ++ str ". " ++ meta_desc
    else if title ≠ [] then title else meta_desc
  else if article_text.length < 100 ∧ headingsOf stripped ≠ [] then
    pyJoin (str " ") (headingsOf stripped)
  else
    let article_text2 :=
      if article_text = [] ∧ (title ≠ [] ∨ meta_desc ≠ []) then
        title ++ str ". " ++ meta_desc
      else article_text
    if article_text2 ≠ [] then article_text2.take 5000
    else
      str "Article from " ++ url ++
        str ". Unable to extract full content due to possible paywall or site restrictions."

/-- final.py lines 176-358, `scrape_article(url)`.  Total by construction:
the Python function catches every exception (outer handler line 354), so
"never raises" holds for the embedding by totality.  The paywall sniff on
lines 196-198 only logs and is omitted. -/
def scrape_article (url : Str) (r : FetchResult) : Str :=
  if r.ok = false then
    str "Article from " ++ domainOf url ++ str ". Unable to extract content."
  else if r.status ≠ 200 then []
  else
    match (if pyIn (str "msn.com") url then msnExtract r else none) with
    | some s => s
    | none => scrapeGeneric url r.doc

/-! ## URLDiscovery — `get_news_urls` (final.py lines 48-174)

Oracle inputs: the parsed Google News search page, the parsed Bing fallback
page (fetched only when Google yields fewer than 3 links), and the backup
RSS items.  An `Except.error` models the corresponding request (or its
`raise_for_status` / parse) raising.  RSS items are already reduced to
their optional link text (`item.find('link')` miss, or an empty falsy link
element, is `none` — either way the item contributes nothing). -/

structure RssItem where
  link : Option Str

structure DiscoveryEnv where
  google : Except Unit Node
  bing : Except Unit Node
  rss : Except Unit (List RssItem)

/-- Lines 71-72 / 92-93: all href values of anchor elements that carry an
href attribute, in document order. -/
def anchorHrefs (doc : Node) : List Str :=
  (findAll (fun n => n.tagIs "a" && (n.attr "href").isSome) doc).filterMap
    (fun n => (n.attr "href").map String.data)

/-- Lines 71-77: Google News links — hrefs starting with `./articles`,
rewritten to absolute URLs by dropping the leading dot. -/
def googleLinks (doc : Node) : List Str :=
  (anchorHrefs doc).filterMap (fun h =>
    if pyStartsWith h (str "./articles") then
      some (str "https://news.google.com" ++ h.drop 1)
    else none)

/-- Line 95: the Bing fallback link filter. -/
def bingOkLink (h : Str) : Bool :=
  (pyStartsWith h (str "http://") || pyStartsWith h (str "https://")) &&
    !pyIn (str "bing") h && !pyIn (str "microsoft") h

/-- Lines 92-98: append qualifying Bing hrefs to `article_links`, breaking
as soon as the accumulated list reaches 5 entries (duplicates included). -/
def bingAppend : List Str → List Str → List Str
  | acc, [] => acc
  | acc, h :: t =>
    if bingOkLink h then
      let acc2 := acc ++ [h]
      if 5 ≤ acc2.length then acc2 else bingAppend acc2 t
    else bingAppend acc t

/-- Lines 102-111: keep the first occurrence of each link, stopping the
moment 5 unique links are held (`seen` always holds exactly the members of
`unique_links`, so membership in the accumulator models the set test). -/
def dedupLoop : List Str → List Str → List Str
  | [], acc => acc
  | l :: t, acc =>
    if l ∈ acc then dedupLoop t acc
    else
      let acc2 := acc ++ [l]
      if 5 ≤ acc2.length then acc2 else dedupLoop t acc2

/-- Lines 102-114: `unique_links` built from `article_links`. -/
def uniqueLinks (links : List Str) : List Str := dedupLoop links []

/-- Lines 55-114: the primary try block — Google scrape, the Bing top-up
when Google yields fewer than 3 links, then dedup-and-cap.  Any raise
inside the block (Google fetch, or the Bing fetch reached via the top-up)
aborts the whole block to the line 116 handler. -/
def primaryBlock (env : DiscoveryEnv) : Except Unit (List Str) := do
  let gdoc ← env.google
  let glinks := googleLinks gdoc
  let links ←
    if glinks.length < 3 then do
      let bdoc ← env.bing
      pure (bingAppend glinks (anchorHrefs bdoc))
    else pure glinks
  pure (uniqueLinks links)

/-- Lines 130-134: valid backup links from the first 5 RSS items — stripped
link text starting with a scheme.  No deduplication is applied here. -/
def rssValidLinks (items : List RssItem) : List Str :=
  (items.take 5).filterMap (fun it =>
    match it.link with
    | some s =>
      let l := pyStrip s
      if pyStartsWith l (str "http://") || pyStartsWith l (str "https://") then some l
      else none
    | none => none)

/-- Lines 120-171: the backup try block.  When the RSS links are non-empty
they are returned as-is; otherwise control reaches line 143, where `if
sources:` evaluates the name `sources`, which is not defined anywhere in
`get_news_urls` — a `NameError` is raised and modelled as the error value
(caught by the line 172 handler). -/
def backupBlock (env : DiscoveryEnv) : Except Unit (List Str) := do
  let items ← env.rss
  let backup := rssValidLinks items
  if backup ≠ [] then pure backup
  else Except.error ()

/-- final.py lines 48-174, `get_news_urls(query)` with the network outcomes
as explicit inputs (the query only shapes the request URLs, which the
oracles absorb). -/
def get_news_urls (env : DiscoveryEnv) : List Str :=
  match primaryBlock env with
  | .ok links => links
  | .error _ =>
    match backupBlock env with
    | .ok backup => backup
    | .error _ => []

/-! ## Summarizer — `summarize_news` (final.py lines 360-478)

The LLM is an oracle from the prompt to a completion; `Except.error` is a
raised `mistral.chat.complete` call.  Both completion calls sit inside the
same try block, so an error in either lands in the line 457 handler. -/

/-- Line 365. -/
def noArticlesMsg : Str := str "No valid articles found to summarize."

/-- Line 476. -/
def insufficientMsg : Str := str "Insufficient content available to generate a summary."

/-- Lines 368-373: keep the entries longer than 50 chars once stripped;
when that filter removes everything, fall back to the unfiltered list. -/
def validOf (articles : List Str) : List Str :=
  let v := articles.filter (fun a => 50 < (pyStrip a).length)
  if v = [] then articles else v

/-- Line 382: the article separator. -/
def articleSep : Str := str "\n\n---ARTICLE---\n\n"

/-- Lines 385-400: the main prompt around the combined text. -/
def mainPrompt (combined : Str) : Str :=
  str "You are a professional news analyst. The following are excerpts from news articles about the same topic.\nPlease create a comprehensive summary that captures all key information from these articles.\n\nRequirements for the summary:\n1. Length: Between 250-500 words total\n2. Structure: Divide the summary into exactly 3 paragraphs\n   - First paragraph: Introduce the main news event and key facts\n   - Second paragraph: Provide context, background details, and supporting information\n   - Third paragraph: Include reactions, implications, or future perspectives\n3. Style: Factual, objective, and journalistic\n4. Content: Integrate all important details from the articles without redundancy\n\nArticles:\n"
    ++ combined ++ str "\n\nBegin your summary now:"

/-- Lines 416-428: the alternate prompt used after the indicator sniff. -/
def altPrompt (combined : Str) : Str :=
  str "You are a news writer tasked with creating a comprehensive summary based on limited information.\nUsing only the facts available in these partial article fragments, write a detailed news summary.\n\nRequirements:\n1. Length: Between 250-500 words total\n2. Structure: Exactly 3 paragraphs with clear breaks between them\n3. Style: Factual and journalistic\n4. Content: Focus only on the information that is definitely available in the fragments\n\nArticle fragments:\n"
    ++ combined ++ str "\n\nWrite your 3-paragraph summary:"

/-- Line 412: the missing-content indicator phrases. -/
def indicators : List Str :=
  [str "missing", str "no article", str "couldn\x27t find", str "no content",
   str "please provide"]

/-- Lines 438-454: ensure paragraph breaks — when the summary has fewer
than 2 double-newline occurrences and splits into at least 6 sentences on
`". "`, rebuild it as three sentence groups; otherwise leave it as-is. -/
def paraFix (summary : Str) : Str :=
  if pyCount (str "\n\n") summary < 2 then
    let sentences := pySplit (str ". ") summary
    if 6 ≤ sentences.length then
      let third := sentences.length / 3
      let para1 := pyJoin (str ". ") (sentences.take third) ++ str "."
      let para2 := pyJoin (str ". ") ((sentences.drop third).take third) ++ str "."
      let para3 := pyJoin (str ". ") (sentences.drop (2 * third))
      let para3 := if pyEndsWith para3 (str ".") then para3 else para3 ++ str "."
      para1 ++ str "\n\n" ++ para2 ++ str "\n\n" ++ para3
    else summary
  else summary

/-- Lines 462-466: up to 5 non-blank dot-split sentences from each valid
article, each re-terminated with a period. -/
def fallbackSentences (valid : List Str) : List Str :=
  (valid.map (fun a =>
    ((pySplit (str ".") a).filterMap (fun s =>
      if pyStrip s = [] then none else some (pyStrip s ++ str "."))).take 5)).flatten

/-- Lines 460-476: the non-LLM extractive fallback — three space-joined
sentence groups separated by blank lines, or the fixed insufficiency
message.  (The inner bare `except` on line 477 guards operations that
cannot fail in this model.) -/
def extractiveSummary (valid : List Str) : Str :=
  let sentences := fallbackSentences valid
  if sentences = [] then insufficientMsg
  else
    let third := max 1 (sentences.length / 3)
    let para1 := pyJoin (str " ") (sentences.take third)
    let para2 := pyJoin (str " ") ((sentences.drop third).take third)
    let para3 := pyJoin (str " ") ((sentences.drop (2 * third)).take third)
    para1 ++ str "\n\n" ++ para2 ++ str "\n\n" ++ para3

/-- final.py lines 360-478, `summarize_news(articles)`. -/
def summarize_news (articles : List Str) (llm : Str → Except Unit Str) : Str :=
  if articles = [] then noArticlesMsg
  else
    let valid := validOf articles
    let combined := pyJoin articleSep valid
    let attempt : Except Unit Str := do
      let summary ← llm (mainPrompt combined)
      let summary ←
        if indicators.any (fun i => pyIn i (pyLower summary)) then llm (altPrompt combined)
        else pure summary
      pure (paraFix summary)
    match attempt with
    | .ok s => s
    | .error _ => extractiveSummary valid

/-! ## FeedCache — `MistralAgent.fetch_news` (agent.py lines 19-62)

Feed fetching is an oracle from the source URL to a parsed feed (title plus
entries); `Except.error` covers any per-source failure, which contributes
zero entries without aborting the category fetch.  Timestamps are integer
seconds; `timedelta(hours=1)` is 3600. -/

structure ArticleRef where
  title : Str
  link : Str
  published : Str
  source : Str
  summary : Str

structure FeedEntry where
  etitle : Str
  elink : Str
  published : Option Str
  esummary : Option Str

structure Feed where
  ftitle : Str
  entries : List FeedEntry

/-- agent.py lines 23-29: the feed registry. -/
def news_sources : List (String × List String) :=
  [("technology", ["https://techcrunch.com/feed/", "https://www.wired.com/feed/rss"]),
   ("business", ["https://www.cnbc.com/id/10001147/device/rss/rss.html"]),
   ("politics", ["https://rss.nytimes.com/services/xml/rss/nyt/Politics.xml"]),
   ("science", ["https://www.science.org/rss/news_feeds/toc_science.xml"]),
   ("general", ["https://rss.nytimes.com/services/xml/rss/nyt/HomePage.xml"])]

/-- agent.py line 42: `self.news_sources.get(category, self.news_sources["general"])`. -/
def sourcesFor (category : String) : List String :=
  match news_sources.lookup category with
  | some l => l
  | none => (news_sources.lookup "general").getD []

/-- agent.py lines 49-55: one feed entry converted to the cached record. -/
def mkRef (f : Feed) (e : FeedEntry) : ArticleRef :=
  ⟨e.etitle, e.elink, e.published.getD (str "Unknown date"), f.ftitle,
   e.esummary.getD (str "No summary available")⟩

/-- agent.py lines 43-57: collect the top 5 entries of each source in
registration order, a failing source contributing nothing; also returns the
list of source URLs for which a fetch was attempted. -/
def fetchAll (oracle : String → Except Unit Feed) (srcs : List String) :
    List ArticleRef × List String :=
  srcs.foldl (fun acc u =>
    match oracle u with
    | .ok f => (acc.1 ++ (f.entries.take 5).map (mkRef f), acc.2 ++ [u])
    | .error _ => (acc.1, acc.2 ++ [u])) ([], [])

/-- The agent's mutable cache state (agent.py lines 30-31), as total maps
from category to optional stored value (`none` = key absent). -/
structure AgentState where
  news_cache : String → Option (List ArticleRef)
  last_fetch : String → Option Int

/-- agent.py lines 30-31: both dicts start empty. -/
def initialAgent : AgentState := ⟨fun _ => none, fun _ => none⟩

/-- The triple returned by one `fetch_news` call: the returned item list,
the state after the call, and the source URLs fetched during it. -/
structure FetchOutcome where
  result : List ArticleRef
  state : AgentState
  fetched : List String

/-- agent.py lines 37-39: the cache-hit test — the category has a recorded
fetch time, `now - last < 3600`, and `force_refresh` is false. -/
def cacheHit (s : AgentState) (category : String) (force_refresh : Bool) (now : Int) : Bool :=
  match s.last_fetch category with
  | some t => decide (now - t < 3600) && !force_refresh
  | none => false

/-- agent.py lines 33-62, `fetch_news(category, force_refresh)` at clock
time `now`.  On a cache hit the call returns `news_cache.get(category, [])`
unchanged (a list in every case — the `.get` default rules out `None`);
otherwise it refetches and replaces both `news_cache[category]` and
`last_fetch[category]` in the same call. -/
def fetch_news (oracle : String → Except Unit Feed) (s : AgentState)
    (category : String) (force_refresh : Bool) (now : Int) : FetchOutcome :=
  if cacheHit s category force_refresh now then ⟨(s.news_cache category).getD [], s, []⟩
  else
    let fetched := fetchAll oracle (sourcesFor category)
    ⟨fetched.1,
     ⟨fun c => if c = category then some fetched.1 else s.news_cache c,
      fun c => if c = category then some now else s.last_fetch c⟩,
     fetched.2⟩

/-- The agent states reachable from construction through any sequence of
`fetch_news` calls (the only methods that touch the cache dicts). -/
inductive Reachable : AgentState → Prop
  | init : Reachable initialAgent
  | step (oracle : String → Except Unit Feed) (s : AgentState) (category : String)
      (force_refresh : Bool) (now : Int) (h : Reachable s) :
      Reachable (fetch_news oracle s category force_refresh now).state

/-! ## Helper lemmas -/

/-- The cache-keys invariant preserved by every `fetch_news` call: a
category with a recorded fetch time also has a cache entry, because both
are written together on every refetch. -/
theorem cache_invariant :
    ∀ s, Reachable s → ∀ c, (s.last_fetch c).isSome → (s.news_cache c).isSome := by
  intro s h
  induction h with
  | init => intro c hc; simp [initialAgent] at hc
  | step oracle s category force now _ ih =>
    intro c hc
    unfold fetch_news at hc ⊢
    by_cases hhit : cacheHit s category force now = true
    · rw [if_pos hhit] at hc ⊢
      exact ih c hc
    · rw [if_neg hhit] at hc ⊢
      by_cases hcc : c = category
      · simp [hcc]
      · simp only [hcc, if_false, if_neg hcc] at hc ⊢
        exact ih c hc

/-! ## Claim C3 -/

/-- Claim C3: for every category, a `fetch_news(category, force_refresh
false)` call within one hour of the previous fetch for that category
returns exactly the item sequence stored by that previous fetch, performs
no feed fetch, and leaves the cache state unchanged. -/
theorem fetch_news_cache_hit (oracle : String → Except Unit Feed) (s : AgentState)
    (category : String) (t now : Int) (hreach : Reachable s)
    (hlf : s.last_fetch category = some t) (httl : now - t < 3600) :
    ∃ items, s.news_cache category = some items ∧
      fetch_news oracle s category false now = ⟨items, s, []⟩ := by
  have hsome := cache_invariant s hreach category (by simp [hlf])
  obtain ⟨items, hitems⟩ := Option.isSome_iff_exists.mp hsome
  refine ⟨items, hitems, ?_⟩
  have hhit : cacheHit s category false now = true := by
    unfold cacheHit
    rw [hlf]
    simp [httl]
  unfold fetch_news
  rw [if_pos hhit, hitems]
  rfl

/-- An oracle on which every feed fetch fails (each source then contributes
zero entries). -/
def witOracle : String → Except Unit Feed := fun _ => Except.error ()

/-- The agent state after one `fetch_news("general")` call at time 0 on a
fresh agent. -/
def witState : AgentState := (fetch_news witOracle initialAgent "general" false 0).state

theorem fetch_news_cache_hit_witness :
    ∃ items, witState.news_cache "general" = some items ∧
      fetch_news witOracle witState "general" false 10 = ⟨items, witState, []⟩ :=
  fetch_news_cache_hit witOracle witState "general" 0 10
    (Reachable.step witOracle initialAgent "general" false 0 Reachable.init)
    (by decide) (by decide)

/-! ## Claim C10 -/

/-- Claim C10: every cache update performed by `fetch_news` sets
`news_cache[category]` and `last_fetch[category]` together in the same call
(a full replace of both entries, touching no other category), so in every
reachable agent state every category present in `last_fetch` is also a key
of `news_cache`.  The call returns a list in every case — `FetchOutcome.
result` is a `List`, and the cache-hit branch reads `news_cache.get(
category, [])`, whose default rules out `None`. -/
theorem fetch_news_cache_together :
    (∀ s, Reachable s → ∀ c, (s.last_fetch c).isSome → (s.news_cache c).isSome) ∧
    (∀ (oracle : String → Except Unit Feed) (s : AgentState) (category : String)
        (force : Bool) (now : Int),
      (fetch_news oracle s category force now).state = s ∨
      ((fetch_news oracle s category force now).state.news_cache category =
          some (fetch_news oracle s category force now).result ∧
        (fetch_news oracle s category force now).state.last_fetch category = some now ∧
        ∀ c, c ≠ category →
          (fetch_news oracle s category force now).state.news_cache c = s.news_cache c ∧
          (fetch_news oracle s category force now).state.last_fetch c = s.last_fetch c)) := by
  constructor
  · exact cache_invariant
  · intro oracle s category force now
    unfold fetch_news
    by_cases hhit : cacheHit s category force now = true
    · rw [if_pos hhit]
      exact Or.inl rfl
    · rw [if_neg hhit]
      right
      refine ⟨by simp, by simp, ?_⟩
      intro c hcc
      simp [hcc]

theorem fetch_news_cache_together_witness :
    (witState.news_cache "general").isSome :=
  fetch_news_cache_together.1 witState
    (Reachable.step witOracle initialAgent "general" false 0 Reachable.init)
    "general" (by decide)

/-! ## Claim C8 -/

/-- Claim C8: the batch passed to summarization keeps exactly the entries
whose stripped text length exceeds 50 characters; if that filter removes
every entry the full unfiltered list is used instead, so the batch actually
summarized (`validOf`, the `valid_articles` that `summarize_news` passes to
the prompt and to the extractive fallback) is non-empty whenever the input
list is. -/
theorem validOf_spec (articles : List Str) (h : articles ≠ []) :
    validOf articles ≠ [] ∧
      ((articles.filter (fun a => 50 < (pyStrip a).length) ≠ [] ∧
        validOf articles = articles.filter (fun a => 50 < (pyStrip a).length)) ∨
       (articles.filter (fun a => 50 < (pyStrip a).length) = [] ∧
        validOf articles = articles)) := by
  by_cases hf : articles.filter (fun a => 50 < (pyStrip a).length) = []
  · have hv : validOf articles = articles := by simp [validOf, hf]
    rw [hv]
    exact ⟨h, Or.inr ⟨hf, rfl⟩⟩
  · have hv : validOf articles = articles.filter (fun a => 50 < (pyStrip a).length) := by
      simp [validOf, hf]
    rw [hv]
    exact ⟨hf, Or.inl ⟨hf, rfl⟩⟩

theorem validOf_spec_witness :
    validOf [str "short"] ≠ [] ∧
      (([str "short"].filter (fun a => 50 < (pyStrip a).length) ≠ [] ∧
        validOf [str "short"] = [str "short"].filter (fun a => 50 < (pyStrip a).length)) ∨
       ([str "short"].filter (fun a => 50 < (pyStrip a).length) = [] ∧
        validOf [str "short"] = [str "short"])) :=
  validOf_spec [str "short"] (by decide)

/-! ## Claim C7 -/

/-- Claim C7: when every LLM completion call raises, `summarize_news` does
not propagate the exception — it returns the non-LLM extractive summary
(three blank-line-separated groups of up to the first 5 sentences of each
article), or a fixed message when no sentence (or no article) is available.
Totality of the embedding reflects that the Python function catches the
failure. -/
theorem summarize_news_llm_failure (articles : List Str) (llm : Str → Except Unit Str)
    (hfail : ∀ p, llm p = Except.error ()) :
    summarize_news articles llm =
      (if articles = [] then noArticlesMsg else extractiveSummary (validOf articles)) ∧
    (articles ≠ [] → fallbackSentences (validOf articles) ≠ [] →
      ∃ g1 g2 g3, summarize_news articles llm =
        g1 ++ str "\n\n" ++ g2 ++ str "\n\n" ++ g3) := by
  have hmain : summarize_news articles llm =
      if articles = [] then noArticlesMsg else extractiveSummary (validOf articles) := by
    unfold summarize_news
    by_cases he : articles = []
    · simp [he]
    · simp only [if_neg he]
      rw [hfail]
      rfl
  refine ⟨hmain, fun hne hs => ?_⟩
  rw [hmain, if_neg hne]
  unfold extractiveSummary
  simp only [if_neg hs]
  exact ⟨_, _, _, rfl⟩

theorem summarize_news_llm_failure_witness :
    ∃ g1 g2 g3,
      summarize_news [str "First fact. Second fact. Third fact."] (fun _ => Except.error ()) =
        g1 ++ str "\n\n" ++ g2 ++ str "\n\n" ++ g3 :=
  (summarize_news_llm_failure [str "First fact. Second fact. Third fact."]
      (fun _ => Except.error ()) (fun _ => rfl)).2 (by decide) (by decide)

/-! ## Paragraph-break helpers for the Summarizer claims -/

/-- The claim-level notion of "contains at least 2 distinct paragraph
breaks": two disjoint double-newline occurrences split the string into
three parts. -/
def hasTwoParagraphBreaks (s : Str) : Prop :=
  ∃ a b c, s = a ++ str "\n\n" ++ b ++ str "\n\n" ++ c

/-- A string with at least one counted occurrence of `sep` splits around
`sep`. -/
theorem countGo_one_split (sep : Str) :
    ∀ (fuel : Nat) (l : Str), l.length ≤ fuel → 1 ≤ countGo sep fuel l →
      ∃ a b, l = a ++ sep ++ b := by
  intro fuel
  induction fuel with
  | zero =>
    intro l _ hc
    simp [countGo] at hc
  | succ n ih =>
    intro l hl hc
    match l with
    | [] => simp [countGo] at hc
    | x :: t =>
      by_cases hp : sep.isPrefixOf (x :: t) = true
      · obtain ⟨rest, hrest⟩ := List.isPrefixOf_iff_prefix.mp hp
        exact ⟨[], rest, by rw [← hrest]; simp⟩
      · rw [countGo, if_neg hp] at hc
        have ht : t.length ≤ n := by
          simp only [List.length_cons] at hl
          omega
        obtain ⟨a, b, hab⟩ := ih t ht hc
        exact ⟨x :: a, b, by rw [hab]; simp⟩

/-- A string with at least two counted occurrences of `sep` splits around
two disjoint copies of `sep`. -/
theorem countGo_two_split (sep : Str) (hsep : sep ≠ []) :
    ∀ (fuel : Nat) (l : Str), l.length ≤ fuel → 2 ≤ countGo sep fuel l →
      ∃ a b c, l = a ++ sep ++ b ++ sep ++ c := by
  intro fuel
  induction fuel with
  | zero =>
    intro l _ hc
    simp [countGo] at hc
  | succ n ih =>
    intro l hl hc
    match l with
    | [] => simp [countGo] at hc
    | x :: t =>
      by_cases hp : sep.isPrefixOf (x :: t) = true
      · obtain ⟨rest, hrest⟩ := List.isPrefixOf_iff_prefix.mp hp
        have hdrop : (x :: t).drop sep.length = rest := by
          rw [← hrest, List.drop_left]
        rw [countGo, if_pos hp, hdrop] at hc
        have hrl : rest.length ≤ n := by
          have hlen : sep.length + rest.length = t.length + 1 := by
            have := congrArg List.length hrest
            simpa using this
          have hpos : 0 < sep.length := List.length_pos.mpr hsep
          simp only [List.length_cons] at hl
          omega
        obtain ⟨a, b, hab⟩ := countGo_one_split sep n rest hrl (by omega)
        refine ⟨[], a, b, ?_⟩
        rw [← hrest, hab]
        simp
      · rw [countGo, if_neg hp] at hc
        have ht : t.length ≤ n := by
          simp only [List.length_cons] at hl
          omega
        obtain ⟨a, b, c, habc⟩ := ih t ht hc
        exact ⟨x :: a, b, c, by rw [habc]; simp⟩

/-- Restatement of the split lemma for `pyCount` (Python `s.count`). -/
theorem pyCount_two_split {sep l : Str} (hsep : sep ≠ []) (h : 2 ≤ pyCount sep l) :
    ∃ a b c, l = a ++ sep ++ b ++ sep ++ c := by
  unfold pyCount at h
  rw [if_neg hsep] at h
  exact countGo_two_split sep hsep l.length l le_rfl h

/-- A string with two paragraph breaks contains a newline. -/
theorem newline_of_breaks {s : Str} (h : hasTwoParagraphBreaks s) : '\n' ∈ s := by
  obtain ⟨a, b, c, rfl⟩ := h
  have hmem : '\n' ∈ str "\n\n" := by decide
  simp only [List.mem_append]
  tauto

/-! ## Claim C6 -/

/-- Three article texts used by the Summarizer counterexample/witness, each
comfortably above the 50-char validity threshold. -/
def threeArticles : List Str :=
  [str "The first article body text, long enough to pass the filter easily.",
   str "The second article body text, long enough to pass the filter easily.",
   str "The third article body text, long enough to pass the filter easily."]

/-- Claim C6 (amended): with 3 non-empty article texts and a constant LLM
completion, `summarize_news` yields at least 2 paragraph breaks whenever the
completion already counts 2 double newlines or splits into at least 6
sentences on `". "` (only then does the line 439-453 re-split fire); a
completion failing both tests is returned unchanged. -/
theorem summarize_news_paragraphs (articles : List Str) (comp : Str)
    (h3 : articles.length = 3) (hne : ∀ a ∈ articles, a ≠ [])
    (hgood : 2 ≤ pyCount (str "\n\n") comp ∨ 6 ≤ (pySplit (str ". ") comp).length) :
    hasTwoParagraphBreaks (summarize_news articles (fun _ => Except.ok comp)) := by
  have hartne : articles ≠ [] := by
    intro h
    rw [h] at h3
    simp at h3
  have hres : summarize_news articles (fun _ => Except.ok comp) = paraFix comp := by
    unfold summarize_news
    rw [if_neg hartne]
    by_cases hind : (indicators.any fun i => pyIn i (pyLower comp)) = true
    · simp only [hind, if_true, Except.bind, bind, pure, Except.pure]
    · simp only [Bool.not_eq_true] at hind
      simp only [hind, if_false, Bool.false_eq_true, Except.bind, bind, pure, Except.pure]
  rw [hres]
  unfold paraFix
  by_cases hc : pyCount (str "\n\n") comp < 2
  · have hs : 6 ≤ (pySplit (str ". ") comp).length := by
      rcases hgood with hg | hg
      · omega
      · exact hg
    rw [if_pos hc, if_pos hs]
    exact ⟨_, _, _, rfl⟩
  · rw [if_neg hc]
    have h2 : 2 ≤ pyCount (str "\n\n") comp := by omega
    exact pyCount_two_split (by decide) h2

theorem summarize_news_paragraphs_witness :
    hasTwoParagraphBreaks (summarize_news threeArticles
      (fun _ => Except.ok (str "One fact. Two facts. Three facts. Four facts. Five facts. Six facts"))) :=
  summarize_news_paragraphs threeArticles
    (str "One fact. Two facts. Three facts. Four facts. Five facts. Six facts")
    (by decide) (by decide) (Or.inr (by decide))

/-- Claim C6 as stated is false: the completion "Hello" has no paragraph
break and splits into a single sentence, so the re-split does not fire and
`summarize_news` returns it unchanged, with zero paragraph breaks, despite
3 non-empty article inputs. -/
theorem summarize_news_paragraphs_counterexample :
    ¬ hasTwoParagraphBreaks (summarize_news threeArticles
      (fun _ => Except.ok (str "Hello"))) := by
  intro h
  have heq : summarize_news threeArticles (fun _ => Except.ok (str "Hello")) =
      str "Hello" := by decide
  rw [heq] at h
  exact absurd (newline_of_breaks h) (by decide)

/-! ## Discovery helpers -/

/-- The dedup-and-cap loop never grows the accumulator past 5. -/
theorem dedupLoop_length : ∀ (t acc : List Str), acc.length < 5 → (dedupLoop t acc).length ≤ 5 := by
  intro t
  induction t with
  | nil =>
    intro acc h
    unfold dedupLoop
    omega
  | cons l t ih =>
    intro acc h
    unfold dedupLoop
    by_cases hm : l ∈ acc
    · rw [if_pos hm]
      exact ih acc h
    · rw [if_neg hm]
      by_cases h5 : 5 ≤ (acc ++ [l]).length
      · simp only [if_pos h5]
        simp only [List.length_append, List.length_singleton]
        omega
      · simp only [if_neg h5]
        refine ih _ ?_
        simp only [List.length_append, List.length_singleton] at h5 ⊢
        omega

/-- The dedup-and-cap loop preserves accumulator distinctness: an element
is only appended after the membership test fails. -/
theorem dedupLoop_nodup : ∀ (t acc : List Str), acc.Nodup → (dedupLoop t acc).Nodup := by
  intro t
  induction t with
  | nil =>
    intro acc h
    unfold dedupLoop
    exact h
  | cons l t ih =>
    intro acc h
    unfold dedupLoop
    by_cases hm : l ∈ acc
    · rw [if_pos hm]
      exact ih acc h
    · rw [if_neg hm]
      have hacc2 : (acc ++ [l]).Nodup := by
        simp [List.nodup_append, h, hm]
      by_cases h5 : 5 ≤ (acc ++ [l]).length
      · simp only [if_pos h5]
        exact hacc2
      · simp only [if_neg h5]
        exact ih _ hacc2

/-- Line 102-114 output: at most 5 links. -/
theorem uniqueLinks_length (links : List Str) : (uniqueLinks links).length ≤ 5 :=
  dedupLoop_length links [] (by decide)

/-- Line 102-114 output: no duplicate link. -/
theorem uniqueLinks_nodup (links : List Str) : (uniqueLinks links).Nodup :=
  dedupLoop_nodup links [] List.nodup_nil

/-- The RSS backup path yields at most 5 links (the first 5 items, each
contributing at most one link). -/
theorem rssValidLinks_length (items : List RssItem) : (rssValidLinks items).length ≤ 5 := by
  unfold rssValidLinks
  calc ((items.take 5).filterMap _).length
      ≤ (items.take 5).length := List.length_filterMap_le _ _
    _ ≤ 5 := by simp [List.length_take]

/-- Every successful primary-block result is a dedup-and-cap output. -/
theorem primaryBlock_ok_shape (env : DiscoveryEnv) (links : List Str)
    (h : primaryBlock env = Except.ok links) : ∃ ls, links = uniqueLinks ls := by
  unfold primaryBlock at h
  cases hg : env.google with
  | error e =>
    rw [hg] at h
    simp [Except.bind, bind] at h
  | ok gdoc =>
    rw [hg] at h
    by_cases hlen : (googleLinks gdoc).length < 3
    · simp only [hlen, if_true, Except.bind, bind, pure, Except.pure] at h
      cases hb : env.bing with
      | error e =>
        rw [hb] at h
        simp at h
      | ok bdoc =>
        rw [hb] at h
        simp only [Except.ok.injEq] at h
        exact ⟨_, h.symm⟩
    · simp only [hlen, if_false, Except.bind, bind, pure, Except.pure] at h
      simp only [Except.ok.injEq] at h
      exact ⟨_, h.symm⟩

/-! ## Claim C2 -/

/-- Claim C2 (amended): `get_news_urls` always returns at most 5 URLs, and
on the primary (Google News / Bing) path the result is additionally
duplicate-free in first-discovery order; the RSS backup path (taken when
the primary block raises) returns its up-to-5 links without deduplication,
so duplicates are possible there. -/
theorem get_news_urls_cap (env : DiscoveryEnv) :
    (get_news_urls env).length ≤ 5 ∧
      (∀ links, primaryBlock env = Except.ok links → (get_news_urls env).Nodup) := by
  constructor
  · unfold get_news_urls
    cases hp : primaryBlock env with
    | ok links =>
      obtain ⟨ls, rfl⟩ := primaryBlock_ok_shape env links hp
      exact uniqueLinks_length ls
    | error e =>
      unfold backupBlock
      cases hr : env.rss with
      | error e2 => simp [Except.bind, bind]
      | ok items =>
        simp only [Except.bind, bind]
        by_cases hb : rssValidLinks items ≠ []
        · simp only [if_pos hb, pure, Except.pure]
          exact rssValidLinks_length items
        · simp only [if_neg hb]
          simp
  · intro links hp
    unfold get_news_urls
    rw [hp]
    obtain ⟨ls, rfl⟩ := primaryBlock_ok_shape env links hp
    exact uniqueLinks_nodup ls

/-- A discovery environment on which the primary block succeeds with an
empty Bing-completed link list. -/
def emptyPagesEnv : DiscoveryEnv :=
  ⟨Except.ok (Node.elem "html" [] []), Except.ok (Node.elem "html" [] []),
   Except.error ()⟩

theorem get_news_urls_cap_witness :
    (get_news_urls emptyPagesEnv).length ≤ 5 ∧ (get_news_urls emptyPagesEnv).Nodup :=
  ⟨(get_news_urls_cap emptyPagesEnv).1,
   (get_news_urls_cap emptyPagesEnv).2 [] rfl⟩

/-- An environment where the primary block raises and the backup RSS feed
repeats the same link in its first two items. -/
def dupRssEnv : DiscoveryEnv :=
  ⟨Except.error (), Except.error (),
   Except.ok [⟨some (str "http://dup.example/a")⟩, ⟨some (str "http://dup.example/a")⟩]⟩

/-- Claim C2 as stated is false: when the primary block raises, the RSS
backup links are returned without deduplication, so a feed repeating one
URL makes `get_news_urls` return that URL twice. -/
theorem get_news_urls_cap_counterexample : ¬ (get_news_urls dupRssEnv).Nodup := by decide

/-! ## Claim C9 -/

/-- Claim C9: whenever the primary Google News/Bing block raises and the
backup RSS query yields zero valid links, `get_news_urls` returns the empty
list — control then reaches `if sources:` (line 143), whose unbound name
`sources` raises a NameError that the line 172 handler catches, so the
query-augmentation branch never contributes a URL. -/
theorem get_news_urls_empty_on_failures (env : DiscoveryEnv)
    (hp : primaryBlock env = Except.error ())
    (hrss : ∀ items, env.rss = Except.ok items → rssValidLinks items = []) :
    get_news_urls env = [] := by
  unfold get_news_urls
  rw [hp]
  unfold backupBlock
  cases hr : env.rss with
  | error e => simp [Except.bind, bind]
  | ok items =>
    have hz := hrss items hr
    simp [Except.bind, bind, hz]

/-- An environment with a failing Google fetch and an RSS feed whose only
item has a non-http link. -/
def failingEnv : DiscoveryEnv :=
  ⟨Except.error (), Except.error (), Except.ok [⟨some (str "not-a-link")⟩]⟩

theorem get_news_urls_empty_on_failures_witness : get_news_urls failingEnv = [] :=
  get_news_urls_empty_on_failures failingEnv rfl
    (fun items h => by
      have hi : items = [RssItem.mk (some (str "not-a-link"))] := by
        have : Except.ok [RssItem.mk (some (str "not-a-link"))] =
            (Except.ok items : Except Unit (List RssItem)) := h
        cases this
        rfl
      rw [hi]
      decide)

/-! ## Claim C4: candidate order of the generic extractor -/

/-- The §4.3-style prioritized candidate list: evaluate candidates in fixed
order and accept the first passing the non-empty-text test. -/
def firstAccepted : List (Option Node) → Option Node
  | [] => none
  | a :: rest => if okC a then a else firstAccepted rest

/-- The extracted text of the first accepted candidate of a list. -/
def specContainerText (cands : List (Option Node)) : Str :=
  match firstAccepted cands with
  | some n => extractFrom n
  | none => []

/-- Modelled from the claim wording: the candidate order the claim asserts —
(a) the explicit article container first, then (b) the test-id hint, then
(c) the class hints, then (d) main, then (e) the best div accepted only
with at least 3 paragraph children. -/
def claimedCandidates (d : Node) : List (Option Node) :=
  [findFirst (fun n => n.tagIs "article") d, findFirst dataTestidArticle d]
    ++ classHints.map (fun h => findFirst (classHintMatch h) d)
    ++ [findFirst (fun n => n.tagIs "main") d,
        if 3 ≤ (bestDiv d).2 then (bestDiv d).1 else none]

/-- The candidate order the code actually uses (methods 1-5 of lines
270-301): the test-id hint first, then the article tag, then the class
hints, then main, then the best div with at least 3 paragraph children. -/
def codeCandidates (d : Node) : List (Option Node) :=
  [findFirst dataTestidArticle d, findFirst (fun n => n.tagIs "article") d]
    ++ classHints.map (fun h => findFirst (classHintMatch h) d)
    ++ [findFirst (fun n => n.tagIs "main") d,
        if 3 ≤ (bestDiv d).2 then (bestDiv d).1 else none]

/-- An accepted candidate is a found element. -/
theorem okC_exists {a : Option Node} (h : okC a = true) : ∃ n, a = some n := by
  cases a with
  | none => simp [okC] at h
  | some n => exact ⟨n, rfl⟩

/-- An unaccepted candidate extracts nothing. -/
theorem textOfC_not_ok {a : Option Node} (h : okC a = false) : textOfC a = [] := by
  cases a with
  | none => rfl
  | some n =>
    simp only [textOfC]
    simp [h]

/-- Extracting from the first accepted candidate is `textOfC` after
`firstAccepted`. -/
theorem specContainerText_eq (cands : List (Option Node)) :
    specContainerText cands = textOfC (firstAccepted cands) := by
  induction cands with
  | nil => rfl
  | cons a rest ih =>
    by_cases h : okC a = true
    · obtain ⟨n, rfl⟩ := okC_exists h
      simp [specContainerText, firstAccepted, if_pos h, textOfC, h]
    · simp only [specContainerText, firstAccepted, if_neg h]
      exact ih

/-- Scanning a concatenated candidate list accepts from the front segment
first. -/
theorem firstAccepted_append (xs ys : List (Option Node)) :
    firstAccepted (xs ++ ys) =
      match firstAccepted xs with
      | some n => some n
      | none => firstAccepted ys := by
  induction xs with
  | nil => rfl
  | cons a xs ih =>
    by_cases h : okC a = true
    · obtain ⟨n, rfl⟩ := okC_exists h
      simp only [List.cons_append, firstAccepted, if_pos h]
    · simp only [List.cons_append, firstAccepted, if_neg h]
      exact ih

/-- The line 279-282 loop agrees with first-accepted scanning over the
per-hint candidates: when some hint is accepted the loop returns exactly
the first accepted hint find, and when none is the scan yields nothing. -/
theorem classHintLoop_vs_firstAccepted (d : Node) :
    ∀ hints : List String,
      (okC (classHintLoop d hints) = true →
        classHintLoop d hints =
          firstAccepted (hints.map (fun h => findFirst (classHintMatch h) d))) ∧
      (okC (classHintLoop d hints) = false →
        firstAccepted (hints.map (fun h => findFirst (classHintMatch h) d)) = none) := by
  intro hints
  induction hints with
  | nil => exact ⟨fun h => by simp [classHintLoop, okC] at h, fun _ => rfl⟩
  | cons h hs ih =>
    cases hs with
    | nil =>
      constructor
      · intro hok
        simp only [classHintLoop] at hok ⊢
        simp only [List.map_cons, List.map_nil, firstAccepted]
        rw [if_pos hok]
      · intro hok
        simp only [classHintLoop] at hok
        simp only [List.map_cons, List.map_nil, firstAccepted]
        rw [if_neg (by simp [hok])]
    | cons h2 hs2 =>
      constructor
      · intro hok
        simp only [classHintLoop] at hok ⊢
        simp only [List.map_cons, firstAccepted]
        by_cases hf : okC (findFirst (classHintMatch h) d) = true
        · rw [if_pos hf] at hok ⊢
          rw [if_pos hf]
        · rw [if_neg hf] at hok ⊢
          rw [if_neg hf]
          exact (ih.1 hok)
      · intro hok
        simp only [classHintLoop] at hok
        simp only [List.map_cons, firstAccepted]
        by_cases hf : okC (findFirst (classHintMatch h) d) = true
        · rw [if_pos hf] at hok
          rw [hf] at hok
          simp at hok
        · rw [if_neg hf] at hok
          rw [if_neg hf]
          exact ih.2 hok

/-- Claim C4 (amended): the generic structural candidates are tried in the
order (b) test-id-hint element, (a) article tag, (c) class-hint keywords in
list order, (d) main, (e) the div with the most paragraph children accepted
only when that count is at least 3 — first candidate with non-empty text
wins, and the extracted container text of `scrape_article`'s method chain
equals first-accepted scanning of that candidate list. -/
theorem containerText_order (d : Node) :
    containerText d = specContainerText (codeCandidates d) := by
  rw [specContainerText_eq]
  unfold containerText chooseArticle codeCandidates classHints orOk
  simp only [List.map_cons, List.map_nil, List.cons_append, List.nil_append]
  by_cases h1 : okC (findFirst dataTestidArticle d) = true
  · simp [firstAccepted, classHintLoop, h1]
  · simp only [firstAccepted, if_neg h1]
    by_cases h2 : okC (findFirst (fun n => n.tagIs "article") d) = true
    · simp [classHintLoop, h2]
    · simp only [if_neg h2]
      by_cases h3 : okC (findFirst (classHintMatch "article") d) = true
      · simp [classHintLoop, h3]
      · simp only [if_neg h3]
        by_cases h4 : okC (findFirst (classHintMatch "content") d) = true
        · simp [classHintLoop, h3, h4]
        · simp only [if_neg h4]
          by_cases h5 : okC (findFirst (classHintMatch "main") d) = true
          · simp [classHintLoop, h3, h4, h5]
          · simp only [if_neg h5]
            by_cases h6 : okC (findFirst (classHintMatch "story") d) = true
            · simp [classHintLoop, h3, h4, h5, h6]
            · simp only [if_neg h6]
              by_cases h7 : okC (findFirst (classHintMatch "entry") d) = true
              · simp [classHintLoop, h3, h4, h5, h6, h7]
              · simp only [if_neg h7]
                by_cases h8 : okC (findFirst (classHintMatch "post") d) = true
                · simp [classHintLoop, h3, h4, h5, h6, h7, h8]
                · simp only [if_neg h8]
                  by_cases h9 : okC (findFirst (classHintMatch "text") d) = true
                  · simp [classHintLoop, h3, h4, h5, h6, h7, h8, h9]
                  · simp only [if_neg h9]
                    by_cases h10 : okC (findFirst (classHintMatch "body") d) = true
                    · simp [classHintLoop, h3, h4, h5, h6, h7, h8, h9, h10]
                    · simp only [if_neg h10]
                      by_cases h11 : okC (findFirst (fun n => n.tagIs "main") d) = true
                      · simp [classHintLoop, h3, h4, h5, h6, h7, h8, h9, h10, h11]
                      · simp only [classHintLoop, if_neg h3, if_neg h4, if_neg h5, if_neg h6, if_neg h7, if_neg h8, if_neg h9, if_neg h10, if_neg h11]
                        by_cases h12 : 3 ≤ (bestDiv d).2
                        · simp only [if_pos h12]
                          by_cases h13 : okC (bestDiv d).1 = true
                          · simp [h10, h13]
                          · simp only [if_neg h13]
                            rw [textOfC_not_ok (Bool.not_eq_true _ |>.mp h13)]
                            rfl
                        · simp only [if_neg h12]
                          rw [textOfC_not_ok (Bool.not_eq_true _ |>.mp h11)]
                          simp [okC, textOfC]

/-- A page carrying both an element with an article-hinting test-id and an
explicit article tag, with different paragraph texts. -/
def orderDoc : Node :=
  Node.elem "html" []
    [Node.elem "article" []
       [Node.elem "p" [] [Node.text (str "This paragraph lives inside the article tag element.")]],
     Node.elem "div" [("data-testid", "story-article-block")]
       [Node.elem "p" [] [Node.text (str "This paragraph lives inside the testid container div.")]]]

/-- Claim C4 as stated is false: on `orderDoc` the code extracts the
test-id container's text (method 1 runs before the article tag), while the
claimed order — article tag first — would extract the article tag's text. -/
theorem containerText_order_counterexample :
    containerText orderDoc ≠ specContainerText (claimedCandidates orderDoc) := by decide

/-! ## Claim C5: non-empty results -/

/-- A space-join of a non-empty heading list other than a lone empty
heading is non-empty. -/
theorem pyJoin_space_ne_nil (hs : List Str) (h1 : hs ≠ []) (h2 : hs ≠ [[]]) :
    pyJoin (str " ") hs ≠ [] := by
  rcases hs with _ | ⟨x, _ | ⟨y, t⟩⟩
  · exact absurd rfl h1
  · have hx : x ≠ [] := by
      intro h
      rw [h] at h2
      exact h2 rfl
    simpa [pyJoin] using hx
  · simp only [pyJoin]
    intro h
    rcases List.append_eq_nil.mp h with ⟨h3, -⟩
    rcases List.append_eq_nil.mp h3 with ⟨-, h4⟩
    exact absurd h4 (by decide)

/-- Truncation of a non-empty string is non-empty. -/
theorem take_5000_ne_nil {l : Str} (h : l ≠ []) : l.take 5000 ≠ [] := by
  cases l with
  | nil => exact absurd rfl h
  | cons a t => simp

/-- On a successful 200 fetch of a non-MSN URL, `scrape_article` runs the
generic extraction chain. -/
theorem scrape_article_200 (url : Str) (r : FetchResult) (hok : r.ok = true)
    (hst : r.status = 200) (hmsn : pyIn (str "msn.com") url = false) :
    scrape_article url r = scrapeGeneric url r.doc := by
  unfold scrape_article
  simp [hok, hst, hmsn]

/-- The generic chain never produces the empty string unless the heading
fallback degenerates to a single empty-text heading. -/
theorem scrapeGeneric_ne_nil (url : Str) (doc : Node)
    (hhead : headingsOf (stripTags removedTags doc) ≠ [[]]) :
    scrapeGeneric url doc ≠ [] := by
  simp only [scrapeGeneric]
  by_cases hc1 : (articleTextOf (stripTags removedTags doc)).length < 100 ∧
      (titleOf doc ≠ [] ∨ metaOf doc ≠ [])
  · rw [if_pos hc1]
    by_cases hc2 : titleOf doc ≠ [] ∧ metaOf doc ≠ []
    · rw [if_pos hc2]
      intro h
      exact hc2.1 (List.append_eq_nil.mp (List.append_eq_nil.mp h).1).1
    · rw [if_neg hc2]
      by_cases hc3 : titleOf doc ≠ []
      · rw [if_pos hc3]
        exact hc3
      · rw [if_neg hc3]
        rcases hc1.2 with ht | hm
        · exact absurd ht hc3
        · exact hm
  · rw [if_neg hc1]
    by_cases hc4 : (articleTextOf (stripTags removedTags doc)).length < 100 ∧
        headingsOf (stripTags removedTags doc) ≠ []
    · rw [if_pos hc4]
      exact pyJoin_space_ne_nil _ hc4.2 hhead
    · rw [if_neg hc4]
      by_cases hc5 : (if articleTextOf (stripTags removedTags doc) = [] ∧
            (titleOf doc ≠ [] ∨ metaOf doc ≠ []) then
          titleOf doc ++ str ". " ++ metaOf doc
        else articleTextOf (stripTags removedTags doc)) ≠ []
      · rw [if_pos hc5]
        exact take_5000_ne_nil hc5
      · rw [if_neg hc5]
        intro h
        exact absurd (List.append_eq_nil.mp (List.append_eq_nil.mp h).1).1 (by decide)

/-- With nothing extractable at all, the generic chain returns the
synthetic placeholder naming the source URL. -/
theorem scrapeGeneric_placeholder (url : Str) (doc : Node)
    (ht : titleOf doc = []) (hm : metaOf doc = [])
    (hh : headingsOf (stripTags removedTags doc) = [])
    (ha : articleTextOf (stripTags removedTags doc) = []) :
    scrapeGeneric url doc =
      str "Article from " ++ url ++
        str ". Unable to extract full content due to possible paywall or site restrictions." := by
  simp [scrapeGeneric, ht, hm, hh, ha]

/-- Claim C5 (amended): for every page fetched with status 200 from a
non-MSN URL whose heading-fallback list is not a single empty heading,
`scrape_article` never returns the empty string, and with nothing
extractable (no title, no meta description, no headings, no article text)
it returns the synthetic placeholder naming the source; a non-200
response, however, does return the empty string. -/
theorem scrape_article_never_empty (url : Str) (r : FetchResult)
    (hok : r.ok = true) (hst : r.status = 200)
    (hmsn : pyIn (str "msn.com") url = false)
    (hhead : headingsOf (stripTags removedTags r.doc) ≠ [[]]) :
    scrape_article url r ≠ [] ∧
      (titleOf r.doc = [] → metaOf r.doc = [] →
       headingsOf (stripTags removedTags r.doc) = [] →
       articleTextOf (stripTags removedTags r.doc) = [] →
       scrape_article url r =
         str "Article from " ++ url ++
           str ". Unable to extract full content due to possible paywall or site restrictions.") := by
  rw [scrape_article_200 url r hok hst hmsn]
  exact ⟨scrapeGeneric_ne_nil url r.doc hhead,
    fun ht hm hh ha => scrapeGeneric_placeholder url r.doc ht hm hh ha⟩

/-- A successful 200 fetch of a page with no content at all. -/
def emptyOkFetch : FetchResult := ⟨true, 200, Node.elem "html" [] [], none⟩

theorem scrape_article_never_empty_witness :
    scrape_article (str "http://example.com/a") emptyOkFetch ≠ [] ∧
      scrape_article (str "http://example.com/a") emptyOkFetch =
        str "Article from " ++ str "http://example.com/a" ++
          str ". Unable to extract full content due to possible paywall or site restrictions." :=
  ⟨(scrape_article_never_empty (str "http://example.com/a") emptyOkFetch
      rfl rfl (by decide) (by decide)).1,
   (scrape_article_never_empty (str "http://example.com/a") emptyOkFetch
      rfl rfl (by decide) (by decide)).2 rfl rfl rfl (by decide)⟩

/-- A fetch answered with HTTP status 404. -/
def notFoundFetch : FetchResult := ⟨true, 404, Node.elem "html" [] [], none⟩

/-- Claim C5 as stated is false: `scrape_article` does return the empty
string — any non-200 response (line 191-193) yields it. -/
theorem scrape_article_never_empty_counterexample :
    scrape_article (str "http://example.com/a") notFoundFetch = [] := by decide

/-! ## Claim C1: totality and the 5000-char bound -/

/-- The three untruncated returns of the MSN soup fallback (lines 237, 242,
245), present only when the page has an h1. -/
def msnFallbacks (doc : Node) : List Str :=
  match findFirst (fun n => n.tagIs "h1") doc with
  | some h1 =>
    [pyStrip (getText h1) ++ str ". " ++ msnParasOf doc,
     pyStrip (getText h1) ++ str ". " ++ msnMetaContent doc,
     pyStrip (getText h1)]
  | none => []

/-- The five untruncated returns of the generic chain: title plus meta
description (line 332), bare title or meta (line 333), the headings join
(line 339), and the URL-naming placeholder (line 352). -/
def genericFallbacks (url : Str) (doc : Node) : List Str :=
  [titleOf doc ++ str ". " ++ metaOf doc, titleOf doc, metaOf doc,
   pyJoin (str " ") (headingsOf (stripTags removedTags doc)),
   str "Article from " ++ url ++
     str ". Unable to extract full content due to possible paywall or site restrictions."]

/-- Every return of `scrape_article` that is not truncated to 5000 chars:
the exception placeholder naming the domain (line 358), the generic
fallbacks, and the MSN fallbacks. -/
def unboundedFallbacks (url : Str) (r : FetchResult) : List Str :=
  (str "Article from " ++ domainOf url ++ str ". Unable to extract content.") ::
    (genericFallbacks url r.doc ++ msnFallbacks r.doc)

/-- A successful MSN soup fallback lands in the MSN fallback list. -/
theorem msnSoupFallback_mem (doc : Node) (s : Str) (h : msnSoupFallback doc = some s) :
    s ∈ msnFallbacks doc := by
  unfold msnSoupFallback at h
  unfold msnFallbacks
  cases hh : findFirst (fun n => n.tagIs "h1") doc with
  | none =>
    rw [hh] at h
    simp at h
  | some h1 =>
    rw [hh] at h
    dsimp only at h ⊢
    by_cases hp : msnParasOf doc ≠ []
    · rw [if_pos hp] at h
      simp only [Option.some.injEq] at h
      subst h
      simp
    · rw [if_neg hp] at h
      by_cases hm2 : msnMetaContent doc ≠ []
      · rw [if_pos hm2] at h
        simp only [Option.some.injEq] at h
        subst h
        simp
      · rw [if_neg hm2] at h
        simp only [Option.some.injEq] at h
        subst h
        simp

/-- Every successful MSN result is truncated or an MSN fallback. -/
theorem msnExtract_bounded (r : FetchResult) (s : Str) (h : msnExtract r = some s) :
    s.length ≤ 5000 ∨ s ∈ msnFallbacks r.doc := by
  unfold msnExtract at h
  cases hj : r.jsonLd with
  | some j =>
    rw [hj] at h
    dsimp only at h
    cases hb : j.articleBody with
    | some b =>
      rw [hb] at h
      simp only [Option.some.injEq] at h
      subst h
      left
      simp only [List.length_take]
      omega
    | none =>
      rw [hb] at h
      cases hd : j.description with
      | some dsc =>
        rw [hd] at h
        simp only [Option.some.injEq] at h
        subst h
        left
        simp only [List.length_take]
        omega
      | none =>
        rw [hd] at h
        exact Or.inr (msnSoupFallback_mem r.doc s h)
  | none =>
    rw [hj] at h
    exact Or.inr (msnSoupFallback_mem r.doc s h)

/-- Every generic-chain result is truncated or a generic fallback. -/
theorem scrapeGeneric_bounded (url : Str) (doc : Node) :
    (scrapeGeneric url doc).length ≤ 5000 ∨
      scrapeGeneric url doc ∈ genericFallbacks url doc := by
  simp only [scrapeGeneric, genericFallbacks]
  by_cases hc1 : (articleTextOf (stripTags removedTags doc)).length < 100 ∧
      (titleOf doc ≠ [] ∨ metaOf doc ≠ [])
  · rw [if_pos hc1]
    by_cases hc2 : titleOf doc ≠ [] ∧ metaOf doc ≠ []
    · rw [if_pos hc2]
      right
      simp
    · rw [if_neg hc2]
      by_cases hc3 : titleOf doc ≠ []
      · rw [if_pos hc3]
        right
        simp
      · rw [if_neg hc3]
        right
        simp
  · rw [if_neg hc1]
    by_cases hc4 : (articleTextOf (stripTags removedTags doc)).length < 100 ∧
        headingsOf (stripTags removedTags doc) ≠ []
    · rw [if_pos hc4]
      right
      simp
    · rw [if_neg hc4]
      by_cases hc5 : (if articleTextOf (stripTags removedTags doc) = [] ∧
            (titleOf doc ≠ [] ∨ metaOf doc ≠ []) then
          titleOf doc ++ str ". " ++ metaOf doc
        else articleTextOf (stripTags removedTags doc)) ≠ []
      · rw [if_pos hc5]
        left
        simp only [List.length_take]
        omega
      · rw [if_neg hc5]
        right
        simp

/-- Claim C1 (amended): `scrape_article` is total (never raises, the Python
handler on line 354 catching everything) and its result is truncated to at
most 5000 characters on the MSN JSON and container-extraction paths, but
the degraded returns — the empty string on non-200, the MSN
headline-based returns, title/meta-description, the headings join, and the
placeholder strings naming the URL or domain — are returned untruncated
and can exceed 5000 characters. -/
theorem scrape_article_bounded (url : Str) (r : FetchResult) :
    (scrape_article url r).length ≤ 5000 ∨
      scrape_article url r ∈ unboundedFallbacks url r := by
  unfold scrape_article
  by_cases h0 : r.ok = false
  · rw [if_pos h0]
    right
    simp [unboundedFallbacks]
  · rw [if_neg h0]
    by_cases h1 : r.status ≠ 200
    · rw [if_pos h1]
      left
      simp
    · rw [if_neg h1]
      have hgen : (scrapeGeneric url r.doc).length ≤ 5000 ∨
          scrapeGeneric url r.doc ∈ unboundedFallbacks url r := by
        rcases scrapeGeneric_bounded url r.doc with hle | hmem
        · exact Or.inl hle
        · exact Or.inr (List.mem_cons_of_mem _ (List.mem_append_left _ hmem))
      by_cases hmsn : pyIn (str "msn.com") url = true
      · rw [if_pos hmsn]
        cases hx : msnExtract r with
        | some s =>
          rcases msnExtract_bounded r s hx with hle | hmem
          · exact Or.inl hle
          · exact Or.inr (List.mem_cons_of_mem _ (List.mem_append_right _ hmem))
        | none => exact hgen
      · rw [if_neg hmsn]
        exact hgen

/-- A page whose title is 5001 characters long and that carries no other
content. -/
def longTitleDoc : Node :=
  Node.elem "html" []
    [Node.elem "title" [] [Node.text (List.replicate 5001 'a')]]

/-- A successful 200 fetch of `longTitleDoc`. -/
def longTitleFetch : FetchResult := ⟨true, 200, longTitleDoc, none⟩

/-- Dropping whitespace from an all-letter run keeps it unchanged. -/
theorem dropWhile_replicate_a (n : Nat) :
    List.dropWhile Char.isWhitespace (List.replicate n 'a') = List.replicate n 'a' := by
  cases n with
  | zero => rfl
  | succ m =>
    rw [List.replicate_succ, List.dropWhile_cons]
    simp

/-- Claim C1 as stated is false: on a 200 page whose only content is a
5001-character title, `scrape_article` returns the title untruncated
(line 333), exceeding the 5000-character bound. -/
theorem scrape_article_bounded_counterexample :
    5000 < (scrape_article (str "http://example.com/a") longTitleFetch).length := by
  have hstrip : pyStrip (List.replicate 5001 'a') = List.replicate 5001 'a' := by
    unfold pyStrip
    rw [dropWhile_replicate_a, List.reverse_replicate, dropWhile_replicate_a,
      List.reverse_replicate]
  have htitle : titleOf longTitleDoc = List.replicate 5001 'a' := by
    unfold titleOf
    have hf : findFirst (fun n => n.tagIs "title") longTitleDoc =
        some (Node.elem "title" [] [Node.text (List.replicate 5001 'a')]) := rfl
    rw [hf]
    show pyStrip (List.replicate 5001 'a' ++ []) = List.replicate 5001 'a'
    rw [List.append_nil]
    exact hstrip
  have hTne : titleOf longTitleDoc ≠ [] := by
    rw [htitle]
    intro hnil
    have hlen := congrArg List.length hnil
    rw [List.length_replicate, List.length_nil] at hlen
    omega
  have hmeta : metaOf longTitleDoc = [] := rfl
  have hat : articleTextOf (stripTags removedTags longTitleDoc) = [] := rfl
  have hname : scrape_article (str "http://example.com/a") longTitleFetch =
      scrapeGeneric (str "http://example.com/a") longTitleDoc :=
    scrape_article_200 _ _ rfl rfl (by decide)
  rw [hname]
  have hres : scrapeGeneric (str "http://example.com/a") longTitleDoc =
      titleOf longTitleDoc := by
    simp only [scrapeGeneric]
    rw [hat, hmeta]
    rw [if_pos ⟨by norm_num, Or.inl hTne⟩]
    rw [if_neg (fun hcon => hcon.2 rfl)]
    rw [if_pos hTne]
  rw [hres, htitle, List.length_replicate]
  norm_num
